import Mathlib

/-!
Verification development for the `ado-diff-extension` browser content script
(`src/content-script.js`).  The script scrapes an Azure DevOps pull-request
page for per-file added/removed line counts, sums them, and injects a summary
badge into the page.  We give a shallow embedding of its pure core:

* `extractNumber`        - the regex parse `text.match(/[+-]?(\d+)/)` followed
                           by `parseInt(match[1], 10)`;
* `calculateStats`       - the debounced scan-and-sum over marker spans;
* `findFileCountElement` / `injectStats` / `updateStatsDisplay`
                         - anchor lookup, badge injection and rendering;
* `setupObserver` / `destroy`
                         - modelled as a step function on an event system;
* `initializeExtension`  - the SPA navigation handler at the bottom of the file.

The DOM is modelled as a rose tree (`Dom` with an explicit forest type
`DomForest` so every function is structural and computable).  An element has a
tag name, a class list, its own text, and children; `textContent` is the
concatenation of the subtree's text in document order.  Machine integers are
modelled as `Int`/`Nat` (the script only ever manipulates small counts and
millisecond timestamps).
-/

namespace AdoDiff

/-! ## Parsing: `extractNumber` (content-script.js lines 66-70)

Source:
    extractNumber(text) {
      const match = text.match(/[+-]?(\d+)/);
      return match ? parseInt(match[1], 10) : 0;
    }

`String.prototype.match` returns the leftmost match of the regex.  At a given
start position the pattern `[+-]?(\d+)` succeeds iff the position holds a
digit, or holds a sign character immediately followed by a digit; the capture
group is the maximal digit run (`\d+` is greedy, and JS `\d` is exactly
`[0-9]`, i.e. `Char.isDigit`).  `reFirstCapture` scans positions left to
right exactly as the regex engine does and returns the capture group. -/

/-- Is the head of the list a decimal digit?  (Used for the lookahead that
decides whether `[+-]?\d+` can match at a sign character.) -/
def headIsDigit : List Char → Bool
  | [] => false
  | c :: _ => c.isDigit

/-- `parseInt(ds, 10)` on a string of decimal digits, as an exact integer. -/
def parseIntDigits (ds : List Char) : Int :=
  ds.foldl (fun a c => a * 10 + ((c.toNat : Int) - 48)) 0

/-- The capture group of the leftmost match of `/[+-]?(\d+)/`, scanning
positions left to right as the JS regex engine does. -/
def reFirstCapture : List Char → Option (List Char)
  | [] => none
  | c :: cs =>
    if (c = '+' || c = '-') && headIsDigit cs then
      some (cs.takeWhile Char.isDigit)
    else if c.isDigit then
      some ((c :: cs).takeWhile Char.isDigit)
    else
      reFirstCapture cs

/-- `extractNumber` from the source: value of the capture group of the first
regex match, or `0` when the text has no match. -/
def extractNumber (text : String) : Int :=
  match reFirstCapture text.data with
  | some ds => parseIntDigits ds
  | none => 0

/-- Spec-side description (claim C9): the first maximal run of decimal digits
occurring anywhere in the character list (empty when there is none). -/
def firstDigitRun : List Char → List Char
  | [] => []
  | c :: cs => if c.isDigit then (c :: cs).takeWhile Char.isDigit else firstDigitRun cs

/-- Spec-side description (claim C9): the integer value of the first run of
decimal digits in the text, `0` when the text contains no digit. -/
def digitRunValue (s : String) : Int :=
  parseIntDigits (firstDigitRun s.data)

/-- JS `String.prototype.trim`: strip whitespace from both ends.  (Defined
structurally over the character list so that it evaluates inside the
kernel.) -/
def jsTrim (s : String) : String :=
  ⟨((s.data.dropWhile Char.isWhitespace).reverse.dropWhile Char.isWhitespace).reverse⟩

/-- Spec-side definition for claim C1, following the claim's words: the
*leading* signed integer of a text, i.e. an optional `+`/`-` sign followed by
digits at the very start of the text; `none` when the text does not start
with such an integer. -/
def leadingSignedInt (s : String) : Option Int :=
  match s.data with
  | '+' :: cs => if headIsDigit cs then some (parseIntDigits (cs.takeWhile Char.isDigit)) else none
  | '-' :: cs => if headIsDigit cs then some (-(parseIntDigits (cs.takeWhile Char.isDigit))) else none
  | cs => if headIsDigit cs then some (parseIntDigits (cs.takeWhile Char.isDigit)) else none

/-- Claim C1's per-marker contribution: the leading signed integer when it is
strictly positive, and `0` for a non-matching text or a zero/negative value. -/
def specContributionC1 (t : String) : Int :=
  match leadingSignedInt (jsTrim t) with
  | some n => if 0 < n then n else 0
  | none => 0

/-- Claim C1's predicted total: sum of `specContributionC1` over the marker
texts. -/
def specSumC1 (texts : List String) : Int :=
  texts.foldl (fun acc t => acc + specContributionC1 t) 0

/-- Amended spec-side contribution (claims C1/C9 as the code behaves): the
value of the first digit run of the trimmed text, with any sign ignored, when
that value is strictly positive; `0` otherwise. -/
def amendedContribution (t : String) : Int :=
  let n := digitRunValue (jsTrim t)
  if 0 < n then n else 0

/-- Amended spec-side total: sum of `amendedContribution` over the marker
texts. -/
def amendedSum (texts : List String) : Int :=
  texts.foldl (fun acc t => acc + amendedContribution t) 0

/-- The summation loop of `calculateStats` (lines 43-60): for each marker
span, trim its text, extract the number, and add it when strictly positive. -/
def sumPositives (texts : List String) : Int :=
  texts.foldl (fun acc t =>
    let n := extractNumber (jsTrim t)
    if 0 < n then acc + n else acc) 0

/-! ## The DOM model

A rose tree with an explicit forest type, so that every traversal is plain
mutual structural recursion (and hence reduces by `rfl`/`decide` on concrete
documents).  A node carries its HTML tag name, its class list, its own text
and its children; `textContent` concatenates the subtree's text in document
order (we model every element as carrying its directly-owned text before its
element children).  Pre-order traversal (node before children, children left
to right) is exactly the document order used by `querySelector(All)`. -/

mutual

inductive Dom : Type where
  | node : String → List String → String → DomForest → Dom

inductive DomForest : Type where
  | nil : DomForest
  | cons : Dom → DomForest → DomForest

end

namespace Dom

/-- Tag name of an element. -/
def tag : Dom → String
  | .node t _ _ _ => t

/-- Class list of an element. -/
def classes : Dom → List String
  | .node _ cs _ _ => cs

/-- The text directly owned by an element (before its child elements). -/
def ownText : Dom → String
  | .node _ _ x _ => x

/-- Children of an element. -/
def children : Dom → DomForest
  | .node _ _ _ ch => ch

end Dom

/-- Does the element carry the given class? (`classList.contains`). -/
def hasClass (c : String) (d : Dom) : Bool :=
  d.classes.contains c

mutual

/-- `element.textContent`: all text of the subtree, in document order. -/
def textContent : Dom → String
  | .node _ _ x ch => x ++ textContentF ch

/-- Text of a forest, in document order. -/
def textContentF : DomForest → String
  | .nil => ""
  | .cons d ds => textContent d ++ textContentF ds

end

mutual

/-- Do all nodes of the subtree (itself included) satisfy `p`? -/
def allNodes (p : Dom → Bool) : Dom → Bool
  | .node t cs x ch => p (.node t cs x ch) && allNodesF p ch

/-- Do all nodes of the forest satisfy `p`? -/
def allNodesF (p : Dom → Bool) : DomForest → Bool
  | .nil => true
  | .cons d ds => allNodes p d && allNodesF p ds

end

mutual

/-- First node of the subtree satisfying `p`, in pre-order (document order);
this is `querySelector` when `p` is a selector predicate. -/
def findNode (p : Dom → Bool) : Dom → Option Dom
  | .node t cs x ch =>
    if p (.node t cs x ch) then some (.node t cs x ch) else findNodeF p ch

/-- First node of the forest satisfying `p`, in pre-order. -/
def findNodeF (p : Dom → Bool) : DomForest → Option Dom
  | .nil => none
  | .cons d ds =>
    match findNode p d with
    | some e => some e
    | none => findNodeF p ds

end

mutual

/-- Texts (`textContent`) of all nodes of the subtree matching
`span.<cls>`, in document order: `document.querySelectorAll('span.' + cls)`
followed by reading each match's text. -/
def markerTexts (cls : String) : Dom → List String
  | .node t cs x ch =>
    (if t = "span" && cs.contains cls then [textContent (.node t cs x ch)] else [])
      ++ markerTextsF cls ch

/-- Marker texts of a forest, in document order. -/
def markerTextsF (cls : String) : DomForest → List String
  | .nil => []
  | .cons d ds => markerTexts cls d ++ markerTextsF cls ds

end

/-! ## Anchor lookup: `findFileCountElement` (lines 72-99)

The source looks at every `.body-m.text-ellipsis` element, returns the first
whose `textContent` is nonempty and matches one of
  `/\d+\s+files?\s+changed/i`, `/\d+\s+files?\s+modified/i`,
  `/files?\s+\(\d+\)/i`,
or contains `'file'` or `'File'` (case-sensitive `includes`); failing that it
falls back to the first `.body-m.text-ellipsis` element at all, and returns
`null` when none exists.  JS `\d` is `[0-9]`; `\s` is whitespace (we model it
with `Char.isWhitespace`).  `/i` lowers letters on both sides.  In
`files?\s+` no backtracking subtlety arises since `'s'` is not whitespace, so
the greedy `s?` below is faithful. -/

/-- Case-insensitive character comparison, as under the regex `/i` flag. -/
def charEqCI (a b : Char) : Bool :=
  a.toLower = b.toLower

/-- Strip the word `w` from the front of `l`, case-insensitively; `none` when
`l` does not start with `w`. -/
def stripWordCI : List Char → List Char → Option (List Char)
  | [], l => some l
  | _ :: _, [] => none
  | w :: ws, c :: cs => if charEqCI w c then stripWordCI ws cs else none

/-- Match `\d+` at the front: strip a nonempty digit run. -/
def stripDigits1 (l : List Char) : Option (List Char) :=
  if headIsDigit l then some (l.dropWhile Char.isDigit) else none

/-- Match `\s+` at the front: strip a nonempty whitespace run. -/
def stripSpaces1 (l : List Char) : Option (List Char) :=
  match l with
  | [] => none
  | c :: cs => if c.isWhitespace then some (cs.dropWhile Char.isWhitespace) else none

/-- Match `files?` at the front, case-insensitively (greedy optional `s`). -/
def stripFilesWord (l : List Char) : Option (List Char) :=
  match stripWordCI "file".data l with
  | none => none
  | some r =>
    match r with
    | c :: cs => if charEqCI 's' c then some cs else some r
    | [] => some r

/-- Match `\d+\s+files?\s+changed` (resp. `modified`) anchored at the front. -/
def matchCountFilesAt (word : List Char) (l : List Char) : Bool :=
  match stripDigits1 l with
  | none => false
  | some r1 =>
    match stripSpaces1 r1 with
    | none => false
    | some r2 =>
      match stripFilesWord r2 with
      | none => false
      | some r3 =>
        match stripSpaces1 r3 with
        | none => false
        | some r4 => (stripWordCI word r4).isSome

/-- Match `files?\s+\(\d+\)` anchored at the front. -/
def matchFilesParenAt (l : List Char) : Bool :=
  match stripFilesWord l with
  | none => false
  | some r1 =>
    match stripSpaces1 r1 with
    | none => false
    | some r2 =>
      match r2 with
      | '(' :: r3 =>
        match stripDigits1 r3 with
        | none => false
        | some r4 =>
          match r4 with
          | ')' :: _ => true
          | _ => false
      | _ => false

/-- Does `p` match at some position of `l` (regex `test`, unanchored)? -/
def matchSomewhere (p : List Char → Bool) : List Char → Bool
  | [] => p []
  | c :: cs => p (c :: cs) || matchSomewhere p cs

/-- JS `String.prototype.includes` (case-sensitive substring test). -/
def strIncludes (pat s : String) : Bool :=
  matchSomewhere (fun l => pat.data.isPrefixOf l) s.data

/-- The file-count text test of `findFileCountElement` (lines 78-85):
`text && (regex1 || regex2 || regex3 || includes fileLower || includes fileCap)`. -/
def fileCountText (text : String) : Bool :=
  text ≠ "" &&
    (matchSomewhere (matchCountFilesAt "changed".data) text.data ||
     matchSomewhere (matchCountFilesAt "modified".data) text.data ||
     matchSomewhere matchFilesParenAt text.data ||
     strIncludes "file" text ||
     strIncludes "File" text)

/-- The selector `.body-m.text-ellipsis`. -/
def anchorClasses (d : Dom) : Bool :=
  hasClass "body-m" d && hasClass "text-ellipsis" d

/-- Primary anchor predicate: a `.body-m.text-ellipsis` element whose text
passes `fileCountText`. -/
def isTarget1 (d : Dom) : Bool :=
  anchorClasses d && fileCountText (textContent d)

/-- Fallback anchor predicate: any `.body-m.text-ellipsis` element. -/
def isTarget2 (d : Dom) : Bool :=
  anchorClasses d

/-- `findFileCountElement` (lines 72-99): first matching element by the file
text test, else the first `.body-m.text-ellipsis` element, else `none`. -/
def findFileCountElement (doc : Dom) : Option Dom :=
  match findNode isTarget1 doc with
  | some e => some e
  | none => findNode isTarget2 doc

/-! ## Badge injection: `injectStats` (lines 101-130)

Source behaviour: locate the anchor via `findFileCountElement`; when none is
found, log and return with the document untouched.  Otherwise remove the
first `.ado-pr-stats` descendant of the anchor if one exists
(`targetElement.querySelector('.ado-pr-stats')` then `.remove()`, which
detaches that element together with its subtree), create a fresh
`span.ado-pr-stats` rendering the current totals, and append it as the
anchor's last child.

`injectAtD`/`injectAtF` perform that removal-and-append at the first
pre-order node satisfying the anchor predicate, i.e. at exactly the node
`findNode` returns; they yield `none` when no node matches, together with a
flag telling whether an existing badge was removed. -/

/-- The class name of the injected badge. -/
def badgeClass : String := "ado-pr-stats"

/-- Is the element the injected badge (`.ado-pr-stats`)? -/
def isBadge (d : Dom) : Bool :=
  hasClass badgeClass d

/-- Append an element as the last child of a forest (`appendChild`). -/
def snocF : DomForest → Dom → DomForest
  | .nil, b => .cons b .nil
  | .cons d ds, b => .cons d (snocF ds b)

mutual

/-- Remove the first pre-order `.ado-pr-stats` descendant of the node
(`querySelector` searches descendants only, so the node itself is not a
candidate); `none` when the subtree below the node holds no badge. -/
def removeBadgeD : Dom → Option Dom
  | .node t cs x ch =>
    match removeBadgeF ch with
    | some ch2 => some (.node t cs x ch2)
    | none => none

/-- Remove the first pre-order badge from a forest; `none` when there is
none.  A badge element is detached together with its whole subtree. -/
def removeBadgeF : DomForest → Option DomForest
  | .nil => none
  | .cons d ds =>
    if isBadge d then some ds
    else
      match removeBadgeD d with
      | some d2 => some (.cons d2 ds)
      | none =>
        match removeBadgeF ds with
        | some ds2 => some (.cons d ds2)
        | none => none

end

mutual

/-- At the first pre-order node satisfying `p`: remove the first existing
badge below it (when any) and append `b` as its last child.  Returns the
rewritten node and whether a badge was removed; `none` when no node of the
subtree satisfies `p`. -/
def injectAtD (p : Dom → Bool) (b : Dom) : Dom → Option (Dom × Bool)
  | .node t cs x ch =>
    if p (.node t cs x ch) then
      match removeBadgeF ch with
      | some ch2 => some (.node t cs x (snocF ch2 b), true)
      | none => some (.node t cs x (snocF ch b), false)
    else
      match injectAtF p b ch with
      | some (ch2, r) => some (.node t cs x ch2, r)
      | none => none

/-- Forest version of `injectAtD`: rewrite inside the first subtree that
holds a `p`-node. -/
def injectAtF (p : Dom → Bool) (b : Dom) : DomForest → Option (DomForest × Bool)
  | .nil => none
  | .cons d ds =>
    match injectAtD p b d with
    | some (d2, r) => some (.cons d2 ds, r)
    | none =>
      match injectAtF p b ds with
      | some (ds2, r) => some (.cons d ds2, r)
      | none => none

end

mutual

/-- Number of `.ado-pr-stats` elements in the subtree. -/
def countBadges : Dom → Nat
  | .node t cs x ch => (if isBadge (.node t cs x ch) then 1 else 0) + countBadgesF ch

/-- Number of `.ado-pr-stats` elements in a forest. -/
def countBadgesF : DomForest → Nat
  | .nil => 0
  | .cons d ds => countBadges d + countBadgesF ds

end

/-! ## Rendering: `updateStatsDisplay` (lines 132-145) -/

/-- `additionsText` (line 135): `this.additionsTotal > 0 ?
'+' + additionsTotal : '0'`. -/
def additionsText (a : Int) : String :=
  if 0 < a then "+" ++ toString a else "0"

/-- `deletionsText` (line 136): `this.deletionsTotal > 0 ?
'-' + deletionsTotal : '0'`. -/
def deletionsText (d : Int) : String :=
  if 0 < d then "-" ++ toString d else "0"

/-- The tooltip set on the badge (line 144). -/
def badgeTitle (a d : Int) : String :=
  "Total additions: " ++ toString a ++ ", Total deletions: " ++ toString d

/-- The rendered content of the injected badge: the two formatted totals and
the tooltip. -/
structure BadgeView : Type where
  addText : String
  delText : String
  title : String
  deriving DecidableEq

/-- `updateStatsDisplay`: a no-op when no badge element exists
(`if (!this.statsElement) return;`), otherwise overwrite the badge's markup
and tooltip from the current totals. -/
def updateStatsDisplay (badge : Option BadgeView) (a d : Int) : Option BadgeView :=
  match badge with
  | none => none
  | some _ => some ⟨additionsText a, deletionsText d, badgeTitle a d⟩

/-- The fresh `span.ado-pr-stats` element created by `injectStats`
(lines 116-127): `updateStatsDisplay` fills it with three inner spans showing
the additions text, a slash, and the deletions text. -/
def newBadge (a d : Int) : Dom :=
  .node "span" [badgeClass] ""
    (.cons (.node "span" [] (additionsText a) .nil)
      (.cons (.node "span" [] "/" .nil)
        (.cons (.node "span" [] (deletionsText d) .nil) .nil)))

/-- `injectStats` as a document transformation.  Returns the new document and
`none` when no anchor was found (injection skipped, document untouched), or
`some removed` when the badge was injected, `removed` telling whether a
previous badge under the anchor was removed first. -/
def injectStats (a d : Int) (doc : Dom) : Dom × Option Bool :=
  match injectAtD isTarget1 (newBadge a d) doc with
  | some (doc2, r) => (doc2, some r)
  | none =>
    match injectAtD isTarget2 (newBadge a d) doc with
    | some (doc2, r) => (doc2, some r)
    | none => (doc, none)

/-! ## The debounced recalculation: `calculateStats` (lines 31-64)

State of one `AzureDevOpsPRStats` instance as far as the totals are
concerned.  Times are `Date.now()` millisecond timestamps, modelled as `Nat`
(the page clock never runs backwards).  The constructor sets both totals and
`lastUpdate` to `0`. -/

structure StatsState : Type where
  additionsTotal : Int
  deletionsTotal : Int
  lastUpdate : Nat
  deriving DecidableEq

/-- `this.debounceDelay = 500` (line 8). -/
def debounceDelay : Nat := 500

/-- The class carried by addition marker spans. -/
def addedClass : String := "repos-compare-added-lines"

/-- The class carried by deletion marker spans. -/
def removedClass : String := "repos-compare-removed-lines"

/-- `calculateStats` (lines 31-64): return unchanged when called within the
debounce window of the last accepted run; otherwise record the call time,
reset both totals to zero and re-sum the positive extracted numbers of all
`span.repos-compare-added-lines` / `span.repos-compare-removed-lines` texts
found in the document.  (The final `updateStatsDisplay` side effect is
modelled separately by `updateStatsDisplay`.) -/
def calculateStats (s : StatsState) (now : Nat) (doc : Dom) : StatsState :=
  if now - s.lastUpdate < debounceDelay then s
  else
    { additionsTotal := sumPositives (markerTexts addedClass doc)
      deletionsTotal := sumPositives (markerTexts removedClass doc)
      lastUpdate := now }

/-- The instance state right after the constructor (lines 2-8). -/
def initState : StatsState :=
  { additionsTotal := 0, deletionsTotal := 0, lastUpdate := 0 }

/-- A sequence of `calculateStats` invocations, each with its `Date.now()`
reading and the document it scans. -/
def runCalc (s : StatsState) (calls : List (Nat × Dom)) : StatsState :=
  calls.foldl (fun st c => calculateStats st c.1 c.2) s

/-! ## The observer event system (lines 147-201)

`setupObserver` installs a `MutationObserver` on `document.body`.  Its
callback checks whether any added/removed element carries (or contains) a
marker class; if so it schedules `setTimeout(() => { calculateStats();
if (!statsElement || !document.contains(statsElement)) injectStats(); },
500)`.  `destroy` (lines 194-201) disconnects the observer and detaches the
badge — but it does not cancel timers already scheduled.

We model the single-threaded event loop as a step function over abstract
events:

* `mutate relevant` — a mutation batch is delivered; `relevant` abstracts the
  marker-class check over its added/removed nodes.  Delivered only while the
  observer is connected; when relevant, one debounce timer is scheduled.
* `timerFire now doc` — the earliest pending debounce timer fires with clock
  reading `now` against document `doc`: it runs `calculateStats` and, when
  the badge is not in the document, `injectStats` (which succeeds exactly
  when the document has a `.body-m.text-ellipsis` anchor).
* `destroy` — the `destroy()` method: disconnect the observer, detach the
  badge.  Pending timers are left pending.

`recalcRuns` counts the accepted (non-debounce-skipped) scan-and-sum
computations, making "a recalculation happened" observable. -/

/-- Does the document contain an injection anchor at all?  (`injectStats`
succeeds exactly when `findFileCountElement` does, i.e. when some element
has both anchor classes, thanks to the fallback branch.) -/
def domHasAnchor (doc : Dom) : Bool :=
  (findNode isTarget2 doc).isSome

/-- Events of the instance's event loop. -/
inductive Ev : Type where
  | mutate : Bool → Ev
  | timerFire : Nat → Dom → Ev
  | destroy : Ev

/-- Observable state of one instance together with its observer, pending
debounce timers and injected badge. -/
structure Sys : Type where
  stats : StatsState
  observerConnected : Bool
  pendingTimers : Nat
  badgePresent : Bool
  recalcRuns : Nat
  deriving DecidableEq

/-- One step of the event loop (see the section comment). -/
def sysStep (s : Sys) : Ev → Sys
  | .mutate relevant =>
    if s.observerConnected && relevant then
      { s with pendingTimers := s.pendingTimers + 1 }
    else s
  | .timerFire now doc =>
    if s.pendingTimers = 0 then s
    else
      let accepted := !(now - s.stats.lastUpdate < debounceDelay)
      { stats := calculateStats s.stats now doc
        observerConnected := s.observerConnected
        pendingTimers := s.pendingTimers - 1
        badgePresent := s.badgePresent || domHasAnchor doc
        recalcRuns := s.recalcRuns + (if accepted then 1 else 0) }
  | .destroy =>
    { s with observerConnected := false, badgePresent := false }

/-- Run a list of events through the event loop. -/
def runEvs (s : Sys) (evs : List Ev) : Sys :=
  evs.foldl sysStep s

/-! ## SPA navigation: `initializeExtension` (lines 204-231)

    let prStats = null;
    function initializeExtension() {
      if (prStats) { prStats.destroy(); }
      if (window.location.pathname.includes('pullrequest')) {
        prStats = new AzureDevOpsPRStats();
      }
    }

We track instance identities as numbers handed out by `nextId`, so that
"an instance was constructed" is observable as `nextId` increasing and
"the old instance was disposed" as its id joining `destroyedIds`.  Note the
source never nulls `prStats` on a non-PR page: the variable keeps pointing
at the destroyed instance. -/

/-- Global state of the content script around `prStats`. -/
structure ExtGlobal : Type where
  prStats : Option Nat
  destroyedIds : List Nat
  nextId : Nat
  deriving DecidableEq

/-- Substring test on character lists (JS `String.prototype.includes`). -/
def hasSubList (pat : List Char) : List Char → Bool
  | [] => pat.isEmpty
  | c :: cs => pat.isPrefixOf (c :: cs) || hasSubList pat cs

/-- `window.location.pathname.includes('pullrequest')` (line 215). -/
def pathHasPullrequest (path : String) : Bool :=
  hasSubList "pullrequest".data path.data

/-- `initializeExtension`: dispose the previous instance when there is one,
then construct a new instance exactly when the path mentions `pullrequest`. -/
def initializeExtension (g : ExtGlobal) (path : String) : ExtGlobal :=
  let g1 : ExtGlobal :=
    match g.prStats with
    | some i => { g with destroyedIds := i :: g.destroyedIds }
    | none => g
  if pathHasPullrequest path then
    { g1 with prStats := some g1.nextId, nextId := g1.nextId + 1 }
  else g1

/-! ## Concrete documents used in counterexamples and witnesses -/

/-- A marker span: `<span class=cls>text</span>`. -/
def markerSpan (cls text : String) : Dom :=
  .node "span" [cls] text .nil

/-- Document with a single deletion marker reading `-3`. -/
def docNeg3 : Dom :=
  .node "html" [] "" (.cons (markerSpan removedClass "-3") .nil)

/-- Document for the C3 scenario: addition markers `+10`, `+5` and deletion
marker `-3`. -/
def docC3 : Dom :=
  .node "html" [] ""
    (.cons (markerSpan addedClass "+10")
      (.cons (markerSpan addedClass "+5")
        (.cons (markerSpan removedClass "-3") .nil)))

/-- Document with one addition marker reading `+1`. -/
def docPlus1 : Dom :=
  .node "html" [] "" (.cons (markerSpan addedClass "+1") .nil)

/-- Document with one addition marker reading `+2`. -/
def docPlus2 : Dom :=
  .node "html" [] "" (.cons (markerSpan addedClass "+2") .nil)

/-- An anchor element (`.body-m.text-ellipsis`) whose text mentions files. -/
def anchorElem : Dom :=
  .node "div" ["body-m", "text-ellipsis"] "3 files changed" .nil

/-- Document containing an anchor and one addition marker; used for the
post-destroy timer counterexample. -/
def docWithAnchor : Dom :=
  .node "html" [] ""
    (.cons anchorElem (.cons (markerSpan addedClass "+7") .nil))

/-- An already-injected badge, as rendered for zero totals. -/
def oldBadge : Dom :=
  .node "span" [badgeClass] ""
    (.cons (.node "span" [] "0" .nil)
      (.cons (.node "span" [] "/" .nil)
        (.cons (.node "span" [] "0" .nil) .nil)))

/-- Document for the C5 counterexample: two `.body-m.text-ellipsis` elements;
the previously injected badge sits under the first, whose text does not
mention files, while the second's text does — so a repeated injection picks
the second element and never sees the old badge. -/
def docTwoAnchors : Dom :=
  .node "html" [] ""
    (.cons (.node "div" ["body-m", "text-ellipsis"] "nothing here" (.cons oldBadge .nil))
      (.cons (.node "div" ["body-m", "text-ellipsis"] "3 files changed" .nil) .nil))

/-- Document for the C5 witness: a single anchor holding the previously
injected badge. -/
def docOneAnchor : Dom :=
  .node "html" [] ""
    (.cons (.node "div" ["body-m", "text-ellipsis"] "3 files changed" (.cons oldBadge .nil)) .nil)

/-- A document with no `.body-m.text-ellipsis` element at all. -/
def docNoAnchor : Dom :=
  .node "html" [] "" (.cons (markerSpan addedClass "+7") .nil)

/-- A live instance: observer connected, badge injected, one accepted
recalculation recorded at time 1000, no pending debounce timer. -/
def sysLive : Sys :=
  { stats := { additionsTotal := 1, deletionsTotal := 0, lastUpdate := 1000 }
    observerConnected := true
    pendingTimers := 0
    badgePresent := true
    recalcRuns := 1 }

/-! ## Helper lemmas: the number parser -/

/-- Folding digits onto a nonnegative accumulator stays nonnegative. -/
theorem foldl_digits_nonneg (ds : List Char) (a : Int) (ha : 0 ≤ a)
    (h : ∀ c ∈ ds, c.isDigit = true) :
    0 ≤ ds.foldl (fun a c => a * 10 + ((c.toNat : Int) - 48)) a := by
  induction ds generalizing a with
  | nil => exact ha
  | cons c cs ih =>
    have hc : c.isDigit = true := h c (List.mem_cons_self _ _)
    have h48 : 48 ≤ (c.toNat : Int) := by
      have : (48 : UInt32) ≤ c.val := by
        have := hc
        simp [Char.isDigit] at this
        exact this.1
      have : (48 : Nat) ≤ c.val.toNat := this
      exact_mod_cast this
    refine ih _ ?_ (fun c hmem => h c (List.mem_cons_of_mem _ hmem))
    show 0 ≤ a * 10 + ((c.toNat : Int) - 48)
    nlinarith

/-- `parseIntDigits` of a digit string is nonnegative. -/
theorem parseIntDigits_nonneg (ds : List Char) (h : ∀ c ∈ ds, c.isDigit = true) :
    0 ≤ parseIntDigits ds :=
  foldl_digits_nonneg ds 0 le_rfl h

/-- Every character of `firstDigitRun` is a digit. -/
theorem firstDigitRun_digits : ∀ l : List Char, ∀ c ∈ firstDigitRun l, c.isDigit = true := by
  intro l
  induction l with
  | nil => intro c hc; simp [firstDigitRun] at hc
  | cons a as ih =>
    intro c hc
    by_cases hd : a.isDigit
    · simp only [firstDigitRun, hd, if_true] at hc
      exact List.mem_takeWhile_imp hc
    · simp only [firstDigitRun, hd, if_false] at hc
      exact ih c hc

/-- The spec-side digit-run value is nonnegative. -/
theorem digitRunValue_nonneg (s : String) : 0 ≤ digitRunValue s :=
  parseIntDigits_nonneg _ (firstDigitRun_digits s.data)

/-- The regex capture of `/[+-]?(\d+)/` is exactly the first maximal digit
run of the text (and there is a match exactly when the text has a digit). -/
theorem reFirstCapture_eq_run : ∀ l : List Char,
    reFirstCapture l = if firstDigitRun l = [] then none else some (firstDigitRun l) := by
  intro l
  induction l with
  | nil => simp [reFirstCapture, firstDigitRun]
  | cons c cs ih =>
    by_cases hd : c.isDigit
    · have hcp : c ≠ '+' := fun h => by subst h; exact absurd hd (by decide)
      have hcm : c ≠ '-' := fun h => by subst h; exact absurd hd (by decide)
      simp [reFirstCapture, firstDigitRun, hcp, hcm, hd, List.takeWhile_cons]
    · by_cases hsign : c = '+' ∨ c = '-'
      · cases cs with
        | nil =>
          have hno : headIsDigit [] = false := rfl
          rcases hsign with rfl | rfl <;>
            simp [reFirstCapture, firstDigitRun, headIsDigit, hd]
        | cons c2 cs2 =>
          by_cases hd2 : c2.isDigit
          · rcases hsign with rfl | rfl <;>
              simp [reFirstCapture, firstDigitRun, headIsDigit, hd2, List.takeWhile_cons, hd]
          · have : reFirstCapture (c :: c2 :: cs2) = reFirstCapture (c2 :: cs2) := by
              rcases hsign with rfl | rfl <;>
                simp [reFirstCapture, headIsDigit, hd2, hd]
            rw [this]
            have : firstDigitRun (c :: c2 :: cs2) = firstDigitRun (c2 :: cs2) := by
              simp [firstDigitRun, hd]
            rw [this]
            exact ih
      · have hcp : c ≠ '+' := fun h => hsign (Or.inl h)
        have hcm : c ≠ '-' := fun h => hsign (Or.inr h)
        have h1 : reFirstCapture (c :: cs) = reFirstCapture cs := by
          simp [reFirstCapture, hcp, hcm, hd]
        have h2 : firstDigitRun (c :: cs) = firstDigitRun cs := by
          simp [firstDigitRun, hd]
        rw [h1, h2]
        exact ih

/-- `extractNumber` computes exactly the spec-side first-digit-run value:
the leading sign is consumed but ignored. -/
theorem extractNumber_eq_digitRunValue (s : String) :
    extractNumber s = digitRunValue s := by
  unfold extractNumber digitRunValue
  rw [reFirstCapture_eq_run s.data]
  by_cases h : firstDigitRun s.data = []
  · simp [h, parseIntDigits]
  · simp [h]

/-- `extractNumber` never returns a negative value. -/
theorem extractNumber_nonneg (s : String) : 0 ≤ extractNumber s := by
  rw [extractNumber_eq_digitRunValue]
  exact digitRunValue_nonneg s

/-- The summation loop of `calculateStats` computes the amended spec-side
sum: per marker, the first-digit-run value when positive, else `0`. -/
theorem sumPositives_eq_amendedSum (texts : List String) :
    sumPositives texts = amendedSum texts := by
  unfold sumPositives amendedSum
  suffices h : ∀ acc : Int,
      texts.foldl (fun acc t =>
        let n := extractNumber (jsTrim t)
        if 0 < n then acc + n else acc) acc
        = texts.foldl (fun acc t => acc + amendedContribution t) acc from h 0
  induction texts with
  | nil => intro acc; rfl
  | cons t ts ih =>
    intro acc
    simp only [List.foldl_cons]
    have hstep : (let n := extractNumber (jsTrim t); if 0 < n then acc + n else acc)
        = acc + amendedContribution t := by
      unfold amendedContribution
      rw [extractNumber_eq_digitRunValue]
      by_cases hp : 0 < digitRunValue (jsTrim t)
      · simp [hp]
      · simp [hp]
    rw [hstep]
    exact ih _

/-- The summation loop only ever adds strictly positive numbers, so its
result is nonnegative. -/
theorem sumPositives_nonneg (texts : List String) : 0 ≤ sumPositives texts := by
  unfold sumPositives
  suffices h : ∀ acc : Int, 0 ≤ acc →
      0 ≤ texts.foldl (fun acc t =>
        let n := extractNumber (jsTrim t)
        if 0 < n then acc + n else acc) acc from h 0 le_rfl
  induction texts with
  | nil => intro acc ha; exact ha
  | cons t ts ih =>
    intro acc ha
    simp only [List.foldl_cons]
    by_cases hp : 0 < extractNumber (jsTrim t)
    · exact ih _ (by simp only [hp, if_pos]; omega)
    · exact ih _ (by simp only [hp, if_neg, if_false]; exact ha)

/-- A text with no digit has an empty first digit run. -/
theorem firstDigitRun_nil_of_noDigits :
    ∀ l : List Char, (∀ c ∈ l, c.isDigit = false) → firstDigitRun l = [] := by
  intro l
  induction l with
  | nil => intro _; rfl
  | cons a as ih =>
    intro h
    have ha : a.isDigit = false := h a (List.mem_cons_self _ _)
    simp only [firstDigitRun, ha, if_false]
    exact ih (fun c hc => h c (List.mem_cons_of_mem _ hc))

/-- An accepted (non-debounced) `calculateStats` call records the clock and
recomputes both totals from the document alone. -/
theorem calculateStats_accepted (s : StatsState) (now : Nat) (doc : Dom)
    (hacc : ¬ (now - s.lastUpdate < debounceDelay)) :
    calculateStats s now doc =
      { additionsTotal := sumPositives (markerTexts addedClass doc)
        deletionsTotal := sumPositives (markerTexts removedClass doc)
        lastUpdate := now } := by
  unfold calculateStats
  rw [if_neg hacc]

/-- A `calculateStats` call within the debounce window is a no-op. -/
theorem calculateStats_skipped (s : StatsState) (now : Nat) (doc : Dom)
    (h : now - s.lastUpdate < debounceDelay) :
    calculateStats s now doc = s := by
  unfold calculateStats
  rw [if_pos h]

/-- A run of invocations all falling within the debounce window of the
recorded `lastUpdate` leaves the state untouched. -/
theorem runCalc_skip (t1 : Nat) (calls : List (Nat × Dom)) :
    ∀ s : StatsState, s.lastUpdate = t1 →
    (∀ p ∈ calls, p.1 - t1 < debounceDelay) →
    runCalc s calls = s := by
  induction calls with
  | nil => intro s _ _; rfl
  | cons c cs ih =>
    intro s hl hw
    have hskip : calculateStats s c.1 c.2 = s :=
      calculateStats_skipped s c.1 c.2 (by rw [hl]; exact hw c (List.mem_cons_self _ _))
    show List.foldl _ s (c :: cs) = s
    rw [List.foldl_cons]
    show runCalc (calculateStats s c.1 c.2) cs = s
    rw [hskip]
    exact ih s hl (fun p hp => hw p (List.mem_cons_of_mem _ hp))

/-! ## Claim theorems -/

/-- Claim C9 (confirmed): `extractNumber` returns the integer value of the
first run of decimal digits occurring anywhere in the text, ignoring any
sign directly preceding that run (so `"-456"` gives `456` and `"abc 12"`
gives `12`), returns `0` when the text contains no digit, and its result is
always nonnegative. -/
theorem C9_extractNumber_spec (s : String) :
    extractNumber s = digitRunValue s ∧
    0 ≤ extractNumber s ∧
    ((∀ c ∈ s.data, c.isDigit = false) → extractNumber s = 0) ∧
    extractNumber "-456" = 456 ∧ extractNumber "abc 12" = 12 := by
  refine ⟨extractNumber_eq_digitRunValue s, extractNumber_nonneg s, ?_, by decide, by decide⟩
  intro h
  rw [extractNumber_eq_digitRunValue]
  unfold digitRunValue
  rw [firstDigitRun_nil_of_noDigits s.data h]
  rfl

/-- Closed witness for C9: a digitless text yields `0`, a negative-looking
text yields the unsigned value. -/
theorem C9_extractNumber_spec_witness :
    extractNumber "abc" = 0 ∧ extractNumber "-456" = 456 :=
  ⟨(C9_extractNumber_spec "abc").2.2.1 (by decide),
   (C9_extractNumber_spec "-456").2.2.2.1⟩

/-- Claim C1 (counterexample): the claim predicts that a deletion marker
reading `-3` contributes `0` (its leading signed integer is negative), but
`calculateStats` stores `3` for it — the regex capture drops the sign. -/
theorem C1_counterexample :
    markerTexts removedClass docNeg3 = ["-3"] ∧
    (calculateStats initState 1000 docNeg3).deletionsTotal = 3 ∧
    specSumC1 ["-3"] = 0 ∧
    (calculateStats initState 1000 docNeg3).deletionsTotal ≠ specSumC1 ["-3"] :=
  ⟨by decide, by decide, by decide, by decide⟩

/-- Claim C1 as amended (proved): an accepted `recalculate()` stores in each
total the sum over that group's marker texts of the value of the text's
first run of decimal digits — with any directly preceding sign *ignored*
rather than honoured — counting a text only when that value is strictly
positive, and `0` for a digitless text. -/
theorem C1_amended_totals (s : StatsState) (now : Nat) (doc : Dom)
    (hacc : ¬ (now - s.lastUpdate < debounceDelay)) :
    (calculateStats s now doc).additionsTotal = amendedSum (markerTexts addedClass doc) ∧
    (calculateStats s now doc).deletionsTotal = amendedSum (markerTexts removedClass doc) := by
  rw [calculateStats_accepted s now doc hacc]
  exact ⟨sumPositives_eq_amendedSum _, sumPositives_eq_amendedSum _⟩

/-- Closed witness for the amended C1 at a concrete document and time. -/
theorem C1_amended_totals_witness :
    (calculateStats initState 1000 docNeg3).deletionsTotal
      = amendedSum (markerTexts removedClass docNeg3) :=
  (C1_amended_totals initState 1000 docNeg3 (by decide)).2

/-- Claim C2 (counterexample): three invocations at times 1000, 1400 and
1700 (from the constructor state).  The pair (1400, 1700) differ by 300ms —
less than the 500ms debounce window — yet the invocation at 1700 is *not*
skipped: the call at 1400 was itself debounced away, so `lastUpdate` still
reads 1000 and the 1700 call recomputes, changing the state. -/
theorem C2_counterexample :
    (1700 : Nat) - 1400 < debounceDelay ∧
    runCalc initState [(1000, docPlus1), (1400, docPlus1), (1700, docPlus2)]
      ≠ runCalc initState [(1000, docPlus1), (1400, docPlus1)] :=
  ⟨by decide, by decide⟩

/-- Claim C2 as amended (proved): when the *first* invocation of the pair is
itself accepted (performs the computation), every later invocation falling
within 500ms of it — not only the next one — is skipped entirely and leaves
`additionsTotal`, `deletionsTotal` and `lastUpdate` unchanged. -/
theorem C2_amended_debounce (s : StatsState) (t1 : Nat) (doc1 : Dom)
    (rest : List (Nat × Dom))
    (hacc : ¬ (t1 - s.lastUpdate < debounceDelay))
    (hwin : ∀ p ∈ rest, p.1 - t1 < debounceDelay) :
    runCalc (calculateStats s t1 doc1) rest = calculateStats s t1 doc1 := by
  have hl : (calculateStats s t1 doc1).lastUpdate = t1 := by
    rw [calculateStats_accepted s t1 doc1 hacc]
  exact runCalc_skip t1 rest _ hl hwin

/-- Closed witness for the amended C2: an accepted call at 1000 followed by
a call at 1400 (different document!) leaves the state of the first call. -/
theorem C2_amended_debounce_witness :
    runCalc (calculateStats initState 1000 docPlus1) [(1400, docPlus2)]
      = calculateStats initState 1000 docPlus1 :=
  C2_amended_debounce initState 1000 docPlus1 [(1400, docPlus2)] (by decide) (by decide)

/-- Claim C3 (confirmed): with addition markers `+10`, `+5` and deletion
marker `-3`, an accepted recalculation stores totals 15 and 3 and the
display refresh renders them as `+15` and `-3` (the badge shows
`+15 / -3`). -/
theorem C3_scenario :
    (calculateStats initState 1000 docC3).additionsTotal = 15 ∧
    (calculateStats initState 1000 docC3).deletionsTotal = 3 ∧
    updateStatsDisplay (some ⟨"", "", ""⟩)
        (calculateStats initState 1000 docC3).additionsTotal
        (calculateStats initState 1000 docC3).deletionsTotal
      = some ⟨"+15", "-3", "Total additions: 15, Total deletions: 3"⟩ :=
  ⟨by decide, by decide, by decide⟩

/-- Claim C7 (confirmed): both totals of an accepted recalculation are
nonnegative and are functions of the document alone — recomputed from `0`
with no carry-over from the previous state — so any two accepted
recalculations over the same document agree; and a debounced call changes
nothing at all. -/
theorem C7_totals_invariant (s : StatsState) (now : Nat) (doc : Dom)
    (hacc : ¬ (now - s.lastUpdate < debounceDelay)) :
    0 ≤ (calculateStats s now doc).additionsTotal ∧
    0 ≤ (calculateStats s now doc).deletionsTotal ∧
    (calculateStats s now doc).additionsTotal = sumPositives (markerTexts addedClass doc) ∧
    (calculateStats s now doc).deletionsTotal = sumPositives (markerTexts removedClass doc) ∧
    (∀ s2 : StatsState, ∀ now2 : Nat, ¬ (now2 - s2.lastUpdate < debounceDelay) →
      (calculateStats s2 now2 doc).additionsTotal = (calculateStats s now doc).additionsTotal ∧
      (calculateStats s2 now2 doc).deletionsTotal = (calculateStats s now doc).deletionsTotal) ∧
    (∀ s3 : StatsState, ∀ now3 : Nat, now3 - s3.lastUpdate < debounceDelay →
      calculateStats s3 now3 doc = s3) := by
  rw [calculateStats_accepted s now doc hacc]
  refine ⟨sumPositives_nonneg _, sumPositives_nonneg _, rfl, rfl, ?_, ?_⟩
  · intro s2 now2 h2
    rw [calculateStats_accepted s2 now2 doc h2]
    exact ⟨rfl, rfl⟩
  · intro s3 now3 h3
    exact calculateStats_skipped s3 now3 doc h3

/-- Closed witness for C7: nonnegativity and agreement of two accepted
recalculations from different prior states over the same document. -/
theorem C7_totals_invariant_witness :
    0 ≤ (calculateStats initState 1000 docC3).additionsTotal ∧
    (calculateStats { additionsTotal := 99, deletionsTotal := 99, lastUpdate := 0 } 2000 docC3).additionsTotal
      = (calculateStats initState 1000 docC3).additionsTotal :=
  ⟨(C7_totals_invariant initState 1000 docC3 (by decide)).1,
   ((C7_totals_invariant initState 1000 docC3 (by decide)).2.2.2.2.1
      { additionsTotal := 99, deletionsTotal := 99, lastUpdate := 0 } 2000 (by decide)).1⟩

/-- Claim C10 (confirmed): the display refresh is a no-op without a badge;
with a badge it renders each side as `"0"` when the total is not strictly
positive (never `"+0"`/`"-0"`), puts a sign exactly on strictly positive
totals, and always writes both numeric totals into the tooltip. -/
theorem C10_display (a d : Int) (b : BadgeView) :
    updateStatsDisplay none a d = none ∧
    updateStatsDisplay (some b) a d = some ⟨additionsText a, deletionsText d, badgeTitle a d⟩ ∧
    (a = 0 → additionsText a = "0") ∧
    (d = 0 → deletionsText d = "0") ∧
    (0 < a → additionsText a = "+" ++ toString a) ∧
    (¬ 0 < a → additionsText a = "0") ∧
    (0 < d → deletionsText d = "-" ++ toString d) ∧
    (¬ 0 < d → deletionsText d = "0") ∧
    badgeTitle a d = "Total additions: " ++ toString a ++ ", Total deletions: " ++ toString d := by
  refine ⟨rfl, rfl, ?_, ?_, ?_, ?_, ?_, ?_, rfl⟩
  · intro h; subst h; rfl
  · intro h; subst h; rfl
  · intro h; unfold additionsText; rw [if_pos h]
  · intro h; unfold additionsText; rw [if_neg h]
  · intro h; unfold deletionsText; rw [if_pos h]
  · intro h; unfold deletionsText; rw [if_neg h]

/-- Closed witness for C10 at totals `0` and `3`. -/
theorem C10_display_witness :
    updateStatsDisplay none 0 3 = none ∧ additionsText 0 = "0" ∧
    deletionsText 3 = "-" ++ toString (3 : Int) :=
  ⟨(C10_display 0 3 ⟨"", "", ""⟩).1,
   (C10_display 0 3 ⟨"", "", ""⟩).2.2.1 rfl,
   (C10_display 0 3 ⟨"", "", ""⟩).2.2.2.2.2.2.1 (by decide)⟩

/-- Claim C8 (confirmed): `initializeExtension` constructs an instance
exactly when the page path mentions `pullrequest` (observable as `nextId`
increasing), and on a navigation to a non-PR page while an instance is live
it disposes that instance and constructs no replacement. -/
theorem C8_activation (g : ExtGlobal) (path : String) (i : Nat)
    (hold : g.prStats = some i)
    (hnon : pathHasPullrequest path = false) :
    (initializeExtension g path).destroyedIds = i :: g.destroyedIds ∧
    (initializeExtension g path).nextId = g.nextId ∧
    (∀ g2 : ExtGlobal, ∀ p2 : String,
      ((initializeExtension g2 p2).nextId = g2.nextId + 1 ↔
        pathHasPullrequest p2 = true)) := by
  refine ⟨?_, ?_, ?_⟩
  · unfold initializeExtension
    rw [hnon, hold]
    rfl
  · unfold initializeExtension
    rw [hnon, hold]
    rfl
  · intro g2 p2
    unfold initializeExtension
    cases hg2 : g2.prStats with
    | none =>
      by_cases hp : pathHasPullrequest p2
      · simp [hp]
      · simp [hp]
    | some j =>
      by_cases hp : pathHasPullrequest p2
      · simp [hp]
      · simp [hp]

/-- Closed witness for C8: navigating from a PR page (one live instance) to
a non-PR path disposes instance 0 and creates nothing; a PR path creates. -/
theorem C8_activation_witness :
    (initializeExtension ⟨some 0, [], 1⟩ "/x/overview").destroyedIds = [0] ∧
    (initializeExtension ⟨some 0, [], 1⟩ "/x/overview").nextId = 1 ∧
    ((initializeExtension ⟨none, [], 0⟩ "/a/_git/r/pullrequest/7").nextId = 0 + 1 ↔
      pathHasPullrequest "/a/_git/r/pullrequest/7" = true) := by
  have h := C8_activation ⟨some 0, [], 1⟩ "/x/overview" 0 rfl (by decide)
  exact ⟨h.1, h.2.1, h.2.2 ⟨none, [], 0⟩ "/a/_git/r/pullrequest/7"⟩

/-- After `destroy()` with no pending timer, the dead configuration
(observer off, no pending timer, no badge, run count frozen) is preserved
by every event. -/
theorem sysStep_dead (k : Nat) (s : Sys) (e : Ev)
    (h : s.observerConnected = false ∧ s.pendingTimers = 0 ∧
         s.badgePresent = false ∧ s.recalcRuns = k) :
    (sysStep s e).observerConnected = false ∧ (sysStep s e).pendingTimers = 0 ∧
    (sysStep s e).badgePresent = false ∧ (sysStep s e).recalcRuns = k := by
  obtain ⟨h1, h2, h3, h4⟩ := h
  cases e with
  | mutate rel => simp [sysStep, h1, h2, h3, h4]
  | timerFire now doc => simp [sysStep, h2, h1, h3, h4]
  | destroy => simp [sysStep, h1, h2, h3, h4]

/-- The dead configuration is preserved by every event sequence. -/
theorem runEvs_dead (k : Nat) (evs : List Ev) : ∀ s : Sys,
    (s.observerConnected = false ∧ s.pendingTimers = 0 ∧
     s.badgePresent = false ∧ s.recalcRuns = k) →
    (runEvs s evs).observerConnected = false ∧ (runEvs s evs).pendingTimers = 0 ∧
    (runEvs s evs).badgePresent = false ∧ (runEvs s evs).recalcRuns = k := by
  induction evs with
  | nil => intro s h; exact h
  | cons e es ih =>
    intro s h
    show (runEvs (sysStep s e) es).observerConnected = false ∧ _
    exact ih _ (sysStep_dead k s e h)

/-- Claim C4 (counterexample): from a live instance, a relevant mutation
schedules a debounce timer; `destroy()` then disconnects the observer and
removes the badge; but the already-scheduled timer still fires at time
2000, performs a recalculation (`recalcRuns` rises from 1 to 2) and even
re-injects the badge — contradicting both halves of the claim's
"including timers scheduled before dispose()". -/
theorem C4_counterexample :
    (runEvs sysLive [.mutate true, .destroy]).badgePresent = false ∧
    (runEvs sysLive [.mutate true, .destroy, .timerFire 2000 docWithAnchor]).recalcRuns = 2 ∧
    (runEvs sysLive [.mutate true, .destroy, .timerFire 2000 docWithAnchor]).badgePresent = true :=
  ⟨by decide, by decide, by decide⟩

/-- Claim C4 as amended (proved): `dispose()` removes the badge from the
document and disconnects the observer, so no mutation observed *after*
dispose ever schedules or triggers a recalculation; and provided no debounce
timer was pending at dispose time, no later event of any kind performs a
recalculation or brings the badge back.  (A timer already pending at
dispose still fires and recalculates — see the counterexample.) -/
theorem C4_amended_dispose (s : Sys) (evs : List Ev)
    (hpend : s.pendingTimers = 0) :
    (sysStep s .destroy).badgePresent = false ∧
    (sysStep s .destroy).observerConnected = false ∧
    (runEvs (sysStep s .destroy) evs).recalcRuns = s.recalcRuns ∧
    (runEvs (sysStep s .destroy) evs).badgePresent = false := by
  have hd : (sysStep s .destroy).observerConnected = false ∧
      (sysStep s .destroy).pendingTimers = 0 ∧
      (sysStep s .destroy).badgePresent = false ∧
      (sysStep s .destroy).recalcRuns = s.recalcRuns := by
    refine ⟨rfl, ?_, rfl, rfl⟩
    show s.pendingTimers = 0
    exact hpend
  have h := runEvs_dead s.recalcRuns evs _ hd
  exact ⟨hd.2.2.1, hd.1, h.2.2.2, h.2.2.1⟩

/-- Closed witness for the amended C4: after dispose of a timer-free live
instance, a relevant mutation followed by a timer tick changes nothing. -/
theorem C4_amended_dispose_witness :
    (runEvs (sysStep sysLive .destroy) [.mutate true, .timerFire 2000 docWithAnchor]).recalcRuns
      = sysLive.recalcRuns ∧
    (runEvs (sysStep sysLive .destroy) [.mutate true, .timerFire 2000 docWithAnchor]).badgePresent
      = false :=
  ⟨(C4_amended_dispose sysLive [.mutate true, .timerFire 2000 docWithAnchor] rfl).2.2.1,
   (C4_amended_dispose sysLive [.mutate true, .timerFire 2000 docWithAnchor] rfl).2.2.2⟩

/-! ## Helper lemmas: DOM traversal and badge counting -/

/-- Appending a child adds its badge count. -/
theorem countBadgesF_snocF (b : Dom) :
    ∀ f : DomForest, countBadgesF (snocF f b) = countBadgesF f + countBadges b
  | .nil => by simp [snocF, countBadgesF]
  | .cons d ds => by
    simp only [snocF, countBadgesF, countBadgesF_snocF b ds]
    omega

/-- The fresh badge created by `injectStats` counts as exactly one badge. -/
theorem countBadges_newBadge (a d : Int) : countBadges (newBadge a d) = 1 := rfl

mutual

/-- If every node of a subtree refutes `p`, `findNode p` misses. -/
theorem findNode_none_dom (p : Dom → Bool) :
    ∀ d : Dom, allNodes (fun n => !p n) d = true → findNode p d = none
  | .node t cs x ch => by
    intro h
    simp only [allNodes, Bool.and_eq_true, Bool.not_eq_true'] at h
    unfold findNode
    rw [h.1]
    simp only [Bool.false_eq_true, if_false]
    exact findNode_none_forest p ch h.2

/-- If every node of a forest refutes `p`, `findNodeF p` misses. -/
theorem findNode_none_forest (p : Dom → Bool) :
    ∀ f : DomForest, allNodesF (fun n => !p n) f = true → findNodeF p f = none
  | .nil => by intro _; rfl
  | .cons d ds => by
    intro h
    simp only [allNodesF, Bool.and_eq_true] at h
    unfold findNodeF
    rw [findNode_none_dom p d h.1]
    exact findNode_none_forest p ds h.2

end

mutual

/-- If every node of a subtree refutes `p`, injection at `p` fails. -/
theorem injectAt_none_dom (p : Dom → Bool) (b : Dom) :
    ∀ d : Dom, allNodes (fun n => !p n) d = true → injectAtD p b d = none
  | .node t cs x ch => by
    intro h
    simp only [allNodes, Bool.and_eq_true, Bool.not_eq_true'] at h
    unfold injectAtD
    rw [h.1]
    simp only [Bool.false_eq_true, if_false]
    rw [injectAt_none_forest p b ch h.2]

/-- If every node of a forest refutes `p`, injection at `p` fails. -/
theorem injectAt_none_forest (p : Dom → Bool) (b : Dom) :
    ∀ f : DomForest, allNodesF (fun n => !p n) f = true → injectAtF p b f = none
  | .nil => by intro _; rfl
  | .cons d ds => by
    intro h
    simp only [allNodesF, Bool.and_eq_true] at h
    unfold injectAtF
    rw [injectAt_none_dom p b d h.1]
    rw [injectAt_none_forest p b ds h.2]

end

mutual

/-- `allNodes` is monotone in the predicate. -/
theorem allNodes_imp_dom (p q : Dom → Bool) (hpq : ∀ n, p n = true → q n = true) :
    ∀ d : Dom, allNodes p d = true → allNodes q d = true
  | .node t cs x ch => by
    intro h
    simp only [allNodes, Bool.and_eq_true] at h ⊢
    exact ⟨hpq _ h.1, allNodes_imp_forest p q hpq ch h.2⟩

/-- `allNodesF` is monotone in the predicate. -/
theorem allNodes_imp_forest (p q : Dom → Bool) (hpq : ∀ n, p n = true → q n = true) :
    ∀ f : DomForest, allNodesF p f = true → allNodesF q f = true
  | .nil => by intro _; rfl
  | .cons d ds => by
    intro h
    simp only [allNodesF, Bool.and_eq_true] at h ⊢
    exact ⟨allNodes_imp_dom p q hpq d h.1, allNodes_imp_forest p q hpq ds h.2⟩

end

mutual

/-- In a subtree holding at most one badge, a successful badge removal shows
the count was exactly one and leaves zero badges. -/
theorem removeBadge_count_dom :
    ∀ d : Dom, countBadges d ≤ 1 → ∀ d2 : Dom, removeBadgeD d = some d2 →
      countBadges d = 1 ∧ countBadges d2 = 0
  | .node t cs x ch => by
    intro hle d2 hrem
    have hself : countBadges (Dom.node t cs x ch)
        = (if isBadge (Dom.node t cs x ch) then 1 else 0) + countBadgesF ch := rfl
    unfold removeBadgeD at hrem
    cases hch : removeBadgeF ch with
    | none => rw [hch] at hrem; exact absurd hrem (by simp)
    | some ch2 =>
      rw [hch] at hrem
      have hd2 : Dom.node t cs x ch2 = d2 := Option.some.inj hrem
      subst hd2
      have hself2 : countBadges (Dom.node t cs x ch2)
          = (if isBadge (Dom.node t cs x ch) then 1 else 0) + countBadgesF ch2 := rfl
      have hchle : countBadgesF ch ≤ 1 := by
        rw [hself] at hle
        by_cases hb : isBadge (Dom.node t cs x ch)
        · rw [if_pos hb] at hle; omega
        · rw [if_neg hb] at hle; omega
      obtain ⟨h1, h2⟩ := removeBadge_count_forest ch hchle ch2 hch
      rw [hself, hself2, h1, h2]
      rw [hself, h1] at hle
      by_cases hb : isBadge (Dom.node t cs x ch)
      · rw [if_pos hb] at hle; omega
      · rw [if_neg hb]; omega

/-- In a forest holding at most one badge, a successful badge removal shows
the count was exactly one and leaves zero badges. -/
theorem removeBadge_count_forest :
    ∀ f : DomForest, countBadgesF f ≤ 1 → ∀ f2 : DomForest, removeBadgeF f = some f2 →
      countBadgesF f = 1 ∧ countBadgesF f2 = 0
  | .nil => by intro _ f2 h; exact absurd h (by simp [removeBadgeF])
  | .cons d ds => by
    intro hle f2 hrem
    have hc : countBadgesF (DomForest.cons d ds) = countBadges d + countBadgesF ds := rfl
    unfold removeBadgeF at hrem
    by_cases hb : isBadge d
    · rw [if_pos hb] at hrem
      have hf2 : ds = f2 := Option.some.inj hrem
      subst hf2
      have hd1 : 1 ≤ countBadges d := by
        cases d with
        | node t cs x ch =>
          have hs : countBadges (Dom.node t cs x ch)
              = (if isBadge (Dom.node t cs x ch) then 1 else 0) + countBadgesF ch := rfl
          rw [hs, if_pos hb]
          omega
      rw [hc] at hle ⊢
      constructor
      · omega
      · omega
    · rw [if_neg hb] at hrem
      cases hd : removeBadgeD d with
      | some d2 =>
        rw [hd] at hrem
        have hf2 : DomForest.cons d2 ds = f2 := Option.some.inj hrem
        subst hf2
        have hdle : countBadges d ≤ 1 := by rw [hc] at hle; omega
        obtain ⟨h1, h2⟩ := removeBadge_count_dom d hdle d2 hd
        have hc2 : countBadgesF (DomForest.cons d2 ds) = countBadges d2 + countBadgesF ds := rfl
        rw [hc, hc2, h1, h2]
        rw [hc, h1] at hle
        constructor <;> omega
      | none =>
        rw [hd] at hrem
        cases hds : removeBadgeF ds with
        | some ds2 =>
          rw [hds] at hrem
          have hf2 : DomForest.cons d ds2 = f2 := Option.some.inj hrem
          subst hf2
          have hdsle : countBadgesF ds ≤ 1 := by rw [hc] at hle; omega
          obtain ⟨h1, h2⟩ := removeBadge_count_forest ds hdsle ds2 hds
          have hc2 : countBadgesF (DomForest.cons d ds2) = countBadges d + countBadgesF ds2 := rfl
          rw [hc, hc2, h1, h2]
          rw [hc, h1] at hle
          constructor <;> omega
        | none => rw [hds] at hrem; exact absurd hrem (by simp)

end

mutual

/-- Badge count after injection into a subtree holding at most one badge:
the new badge's count is added, a removed old badge (flag `true`) is
subtracted, and the flag being `true` certifies the subtree held exactly
one badge. -/
theorem injectAt_count_dom (p : Dom → Bool) (b : Dom) :
    ∀ d : Dom, countBadges d ≤ 1 → ∀ d2 : Dom, ∀ r : Bool,
      injectAtD p b d = some (d2, r) →
      countBadges d2 = (if r then 0 else countBadges d) + countBadges b ∧
      (r = true → countBadges d = 1)
  | .node t cs x ch => by
    intro hle d2 r hinj
    have hself : countBadges (Dom.node t cs x ch)
        = (if isBadge (Dom.node t cs x ch) then 1 else 0) + countBadgesF ch := rfl
    unfold injectAtD at hinj
    by_cases hp : p (Dom.node t cs x ch)
    · rw [if_pos hp] at hinj
      cases hch : removeBadgeF ch with
      | some ch2 =>
        rw [hch] at hinj
        have hpair := Option.some.inj hinj
        have hd2 : Dom.node t cs x (snocF ch2 b) = d2 := congrArg Prod.fst hpair
        have hr : true = r := congrArg Prod.snd hpair
        subst hd2
        subst hr
        have hchle : countBadgesF ch ≤ 1 := by
          rw [hself] at hle
          by_cases hb : isBadge (Dom.node t cs x ch)
          · rw [if_pos hb] at hle; omega
          · rw [if_neg hb] at hle; omega
        obtain ⟨h1, h2⟩ := removeBadge_count_forest ch hchle ch2 hch
        have hself2 : countBadges (Dom.node t cs x (snocF ch2 b))
            = (if isBadge (Dom.node t cs x ch) then 1 else 0) + countBadgesF (snocF ch2 b) := rfl
        rw [hself, h1] at hle
        by_cases hb : isBadge (Dom.node t cs x ch)
        · rw [if_pos hb] at hle; omega
        · constructor
          · rw [hself2, if_neg hb, countBadgesF_snocF, h2, if_pos rfl]
            omega
          · intro _
            rw [hself, if_neg hb, h1]
      | none =>
        rw [hch] at hinj
        have hpair := Option.some.inj hinj
        have hd2 : Dom.node t cs x (snocF ch b) = d2 := congrArg Prod.fst hpair
        have hr : false = r := congrArg Prod.snd hpair
        subst hd2
        subst hr
        have hself2 : countBadges (Dom.node t cs x (snocF ch b))
            = (if isBadge (Dom.node t cs x ch) then 1 else 0) + countBadgesF (snocF ch b) := rfl
        constructor
        · rw [hself2, countBadgesF_snocF, if_neg Bool.false_ne_true, hself]
          omega
        · intro h
          exact absurd h Bool.false_ne_true
    · rw [if_neg hp] at hinj
      cases hch : injectAtF p b ch with
      | some pr =>
        obtain ⟨ch2, r2⟩ := pr
        rw [hch] at hinj
        have hpair := Option.some.inj hinj
        have hd2 : Dom.node t cs x ch2 = d2 := congrArg Prod.fst hpair
        have hr : r2 = r := congrArg Prod.snd hpair
        subst hd2
        subst hr
        have hchle : countBadgesF ch ≤ 1 := by
          rw [hself] at hle
          by_cases hb : isBadge (Dom.node t cs x ch)
          · rw [if_pos hb] at hle; omega
          · rw [if_neg hb] at hle; omega
        obtain ⟨h1, h2⟩ := injectAt_count_forest p b ch hchle ch2 r2 hch
        have hself2 : countBadges (Dom.node t cs x ch2)
            = (if isBadge (Dom.node t cs x ch) then 1 else 0) + countBadgesF ch2 := rfl
        cases r2 with
        | true =>
          have hch1 : countBadgesF ch = 1 := h2 rfl
          rw [hself, hch1] at hle
          by_cases hb : isBadge (Dom.node t cs x ch)
          · rw [if_pos hb] at hle; omega
          · rw [if_pos rfl] at h1 ⊢
            constructor
            · rw [hself2, if_neg hb, h1]
              omega
            · intro _
              rw [hself, if_neg hb, hch1]
        | false =>
          rw [if_neg Bool.false_ne_true] at h1 ⊢
          constructor
          · rw [hself2, h1, hself]
            omega
          · intro h
            exact absurd h Bool.false_ne_true
      | none => rw [hch] at hinj; exact absurd hinj (by simp)

/-- Forest version of `injectAt_count_dom`. -/
theorem injectAt_count_forest (p : Dom → Bool) (b : Dom) :
    ∀ f : DomForest, countBadgesF f ≤ 1 → ∀ f2 : DomForest, ∀ r : Bool,
      injectAtF p b f = some (f2, r) →
      countBadgesF f2 = (if r then 0 else countBadgesF f) + countBadges b ∧
      (r = true → countBadgesF f = 1)
  | .nil => by intro _ f2 r h; exact absurd h (by simp [injectAtF])
  | .cons d ds => by
    intro hle f2 r hinj
    have hc : countBadgesF (DomForest.cons d ds) = countBadges d + countBadgesF ds := rfl
    unfold injectAtF at hinj
    cases hd : injectAtD p b d with
    | some pr =>
      obtain ⟨d2, r2⟩ := pr
      rw [hd] at hinj
      have hpair := Option.some.inj hinj
      have hf2 : DomForest.cons d2 ds = f2 := congrArg Prod.fst hpair
      have hr : r2 = r := congrArg Prod.snd hpair
      subst hf2
      subst hr
      have hdle : countBadges d ≤ 1 := by rw [hc] at hle; omega
      obtain ⟨h1, h2⟩ := injectAt_count_dom p b d hdle d2 r2 hd
      have hc2 : countBadgesF (DomForest.cons d2 ds) = countBadges d2 + countBadgesF ds := rfl
      cases r2 with
      | true =>
        have hd1 : countBadges d = 1 := h2 rfl
        rw [hc, hd1] at hle
        rw [if_pos rfl] at h1 ⊢
        constructor
        · rw [hc2, h1]
          omega
        · intro _
          rw [hc, hd1]
          omega
      | false =>
        rw [if_neg Bool.false_ne_true] at h1 ⊢
        constructor
        · rw [hc2, h1, hc]
          omega
        · intro h
          exact absurd h Bool.false_ne_true
    | none =>
      rw [hd] at hinj
      cases hds : injectAtF p b ds with
      | some pr =>
        obtain ⟨ds2, r2⟩ := pr
        rw [hds] at hinj
        have hpair := Option.some.inj hinj
        have hf2 : DomForest.cons d ds2 = f2 := congrArg Prod.fst hpair
        have hr : r2 = r := congrArg Prod.snd hpair
        subst hf2
        subst hr
        have hdsle : countBadgesF ds ≤ 1 := by rw [hc] at hle; omega
        obtain ⟨h1, h2⟩ := injectAt_count_forest p b ds hdsle ds2 r2 hds
        have hc2 : countBadgesF (DomForest.cons d ds2) = countBadges d + countBadgesF ds2 := rfl
        cases r2 with
        | true =>
          have hds1 : countBadgesF ds = 1 := h2 rfl
          rw [hc, hds1] at hle
          rw [if_pos rfl] at h1 ⊢
          constructor
          · rw [hc2, h1]
            omega
          · intro _
            rw [hc, hds1]
            omega
        | false =>
          rw [if_neg Bool.false_ne_true] at h1 ⊢
          constructor
          · rw [hc2, h1, hc]
            omega
          · intro h
            exact absurd h Bool.false_ne_true
      | none => rw [hds] at hinj; exact absurd hinj (by simp)

end

/-- Claim C6 (confirmed): in a document with no `.body-m.text-ellipsis`
element at all, the anchor lookup returns nothing and `injectStats` leaves
the document untouched and injects no badge (the embedding is total, so no
exception is possible; the source only logs in this branch). -/
theorem C6_no_anchor (a d : Int) (doc : Dom)
    (h : allNodes (fun n => !anchorClasses n) doc = true) :
    findFileCountElement doc = none ∧ injectStats a d doc = (doc, none) := by
  have h1 : allNodes (fun n => !isTarget1 n) doc = true := by
    refine allNodes_imp_dom _ _ ?_ doc h
    intro n hn
    simp only [Bool.not_eq_true'] at hn ⊢
    simp [isTarget1, hn]
  have h2 : allNodes (fun n => !isTarget2 n) doc = true := by
    refine allNodes_imp_dom _ _ ?_ doc h
    intro n hn
    simp only [Bool.not_eq_true'] at hn ⊢
    simp [isTarget2, hn]
  constructor
  · unfold findFileCountElement
    rw [findNode_none_dom isTarget1 doc h1, findNode_none_dom isTarget2 doc h2]
  · unfold injectStats
    rw [injectAt_none_dom isTarget1 (newBadge a d) doc h1,
        injectAt_none_dom isTarget2 (newBadge a d) doc h2]

/-- Closed witness for C6 on a concrete anchor-free document. -/
theorem C6_no_anchor_witness :
    findFileCountElement docNoAnchor = none ∧
    injectStats 5 7 docNoAnchor = (docNoAnchor, none) :=
  C6_no_anchor 5 7 docNoAnchor (by decide)

/-- Claim C5 (counterexample): a document whose previously injected badge
sits under one `.body-m.text-ellipsis` element while a *different*
`.body-m.text-ellipsis` element now wins the anchor lookup: repeated
injection leaves two badges, not one. -/
theorem C5_counterexample :
    countBadges docTwoAnchors = 1 ∧
    countBadges (injectStats 0 0 docTwoAnchors).1 = 2 :=
  ⟨by decide, by decide⟩

/-- Claim C5 as amended (proved): repeated injection is duplicate-free when
the injection actually sees the previous badge — if the document holds
exactly one badge and the run removes an old badge under its chosen anchor
(removal flag `true`), then exactly one badge remains afterwards.  (When the
old badge lies outside the chosen anchor, it is not removed and a duplicate
survives: see the counterexample.) -/
theorem C5_amended_inject (a d : Int) (doc : Dom)
    (h1 : countBadges doc = 1)
    (h2 : (injectStats a d doc).2 = some true) :
    countBadges (injectStats a d doc).1 = 1 := by
  unfold injectStats at h2 ⊢
  cases hA : injectAtD isTarget1 (newBadge a d) doc with
  | some pr =>
    obtain ⟨doc2, r⟩ := pr
    simp only [hA] at h2 ⊢
    have hr : r = true := Option.some.inj h2
    subst hr
    have hcount := injectAt_count_dom isTarget1 (newBadge a d) doc (le_of_eq h1) doc2 true hA
    have h3 := hcount.1
    rw [if_pos rfl, countBadges_newBadge] at h3
    omega
  | none =>
    simp only [hA] at h2 ⊢
    cases hB : injectAtD isTarget2 (newBadge a d) doc with
    | some pr =>
      obtain ⟨doc2, r⟩ := pr
      simp only [hB] at h2 ⊢
      have hr : r = true := Option.some.inj h2
      subst hr
      have hcount := injectAt_count_dom isTarget2 (newBadge a d) doc (le_of_eq h1) doc2 true hB
      have h3 := hcount.1
      rw [if_pos rfl, countBadges_newBadge] at h3
      omega
    | none =>
      simp only [hB] at h2
      exact absurd h2 (by simp)

/-- Closed witness for the amended C5: one anchor holding the old badge —
reinjection removes it and leaves exactly one badge. -/
theorem C5_amended_inject_witness :
    countBadges (injectStats 0 0 docOneAnchor).1 = 1 :=
  C5_amended_inject 0 0 docOneAnchor (by decide) (by decide)

end AdoDiff
